import Mathlib

/-!
Verification development for the `satu-naskah-be` real-time collaboration
backend (Go).  The definitions below are a shallow embedding of the Hub,
Connection read/write pumps, SaveWorker and forced-remove logic found in
`src/socket/hub.go` and `src/socket/client.go`.

Modelling conventions:
* Go byte slices carrying opaque JSON payloads are modelled by the
  inductive `Payload` (byte equality on slices becomes decidable equality
  on `Payload`); plain content bytes are `Payload.bytes s`.
* Go maps are modelled as functions into `Option`; map iteration order,
  which Go leaves unspecified, is fixed to the list order kept in each
  room / presence entry.
* `DirtyDocs : map[string]bool` is modelled by the list of keys whose
  value is `true`: the code only ever branches on `isDirty`, so entries
  holding `false` are behaviourally identical to absent entries.
* Each case of `Hub.Run`'s select loop runs as one atomic step (the code
  serialises all state mutation on `h.mu` inside a single goroutine);
  the SaveWorker tick is split into a snapshot step and per-document
  write steps, because the code releases the lock between them.
* A send on an unbuffered channel completes only when another goroutine
  is at a matching receive.  The only receiver of `h.Unregister` and
  `h.Broadcast` is `Hub.Run`'s select, executed by the hub goroutine
  itself; therefore `h.Unregister <- client` performed *inside* the
  broadcast case of `Hub.Run` (hub.go line 195) can never complete and
  permanently blocks the hub goroutine.  This is modelled by the `stuck`
  flag: once set, the hub processes no further register/unregister/
  broadcast events (the SaveWorker and `RemoveDocument` keep running,
  since they synchronise on the mutex, which is *not* held during the
  fanout loop).
-/

namespace Satunaskah

/-- Message type constants from hub.go lines 14-22. -/
def UpdateType : String := "UPDATE"

def CursorType : String := "CURSOR"

def JoinType : String := "JOIN"

def LeaveType : String := "LEAVE"

def PresenceUpdateType : String := "PRESENCE_UPDATE"

def CommentType : String := "COMMENT"

def MetadataType : String := "METADATA"

/-- Role constants from hub.go lines 24-26. -/
def RoleWriter : String := "writer"

def RoleReviewer : String := "reviewer"

def RoleReader : String := "reader"

/-- `UserStatus` (hub.go lines 36-40): presence entry for one user. -/
structure UserStatus where
  userID : String
  cursorPos : Int
  lastSeen : Nat
deriving DecidableEq, Repr

/-- Opaque JSON payload bytes.  `bytes` is a raw content slice, the other
constructors are the two structured payloads the Hub itself marshals
(`map[string]string{"title": ...}` and `[]UserStatus`). -/
inductive Payload where
  | bytes (content : String)
  | titleObj (title : String)
  | presenceList (statuses : List UserStatus)
deriving DecidableEq, Repr

/-- `WSMessage` (hub.go lines 29-34).  The Go field `Type` is `mtype`
here. -/
structure WSMessage where
  mtype : String
  docID : String
  userID : String
  payload : Payload
deriving DecidableEq, Repr

/-- `Client` (hub.go lines 54-62) as seen by the Hub: the identity data
established in `ServeWs` before registration.  `cid` identifies the Go
struct pointer (each `ServeWs` call allocates a fresh `*Client`); the
outbound channel contents are kept separately in the hub state, keyed by
`cid`. -/
structure Conn where
  cid : Nat
  userID : String
  docID : String
  role : String
  title : String
deriving DecidableEq, Repr

/-- Outbound queue capacity: `make(chan []byte, 256)` in client.go. -/
def CAP : Nat := 256

/-- Fallback content when the initial load fails (hub.go line 93). -/
def defaultContent : Payload := .bytes "\x7b\"ops\":[]\x7d"

/-- Update a string-keyed map. -/
def setKV {α : Type} (f : String → Option α) (k : String) (v : Option α) :
    String → Option α :=
  fun k' => if k' = k then v else f k'

/-- Append one frame to the queue of connection `cid`. -/
def enqueue (qs : Nat → List WSMessage) (cid : Nat) (m : WSMessage) :
    Nat → List WSMessage :=
  fun k => if k = cid then qs k ++ [m] else qs k

/-- Increment the close counter of connection `cid`. -/
def bump (f : Nat → Nat) (cid : Nat) : Nat → Nat :=
  fun k => if k = cid then f k + 1 else f k

/-- Adding a client to a room set (`h.Rooms[docID][client] = true`):
a map insert is a no-op when the key is already present. -/
def addConn (mem : List Conn) (c : Conn) : List Conn :=
  if c ∈ mem then mem else mem ++ [c]

/-- `h.Presence[docID][userID] = status`: insert-or-replace in the
per-document presence map. -/
def setAssoc (l : List (String × UserStatus)) (k : String) (v : UserStatus) :
    List (String × UserStatus) :=
  match l with
  | [] => [(k, v)]
  | (k', v') :: t => if k' = k then (k, v) :: t else (k', v') :: setAssoc t k v

/-- `delete(h.Presence[docID], userID)`. -/
def eraseAssoc (l : List (String × UserStatus)) (k : String) :
    List (String × UserStatus) :=
  l.filter (fun p => p.1 != k)

/-- Membership in the dirty set (`h.DirtyDocs[docID] = true`). -/
def addDirty (l : List String) (d : String) : List String :=
  if d ∈ l then l else l ++ [d]

/-- `delete(h.DirtyDocs, docID)` / `h.DirtyDocs[docID] = false`. -/
def eraseDirty (l : List String) (d : String) : List String :=
  l.filter (fun x => x != d)

/-- The shared state owned by the Hub, together with the per-connection
outbound queues, the document store contents, the log of store writes
and the SaveWorker's in-flight snapshots. -/
structure HubState where
  rooms : String → Option (List Conn)
  presence : String → Option (List (String × UserStatus))
  cache : String → Option Payload
  dirty : List String
  queues : Nat → List WSMessage
  closedCount : Nat → Nat
  db : String → Option Payload
  dbLog : List (String × Payload)
  pendingSave : List (String × Payload)
  stuck : Bool
  now : Nat

/-- `h.Rooms[d]` with a missing entry read as the empty set. -/
def roomAt (s : HubState) (d : String) : List Conn :=
  (s.rooms d).getD []

/-- The outbound queue of connection `cid`. -/
def queueOf (s : HubState) (cid : Nat) : List WSMessage :=
  s.queues cid

/-- `h.DocumentCache[d]` with a missing entry read as nil bytes, the way
`string(h.DocumentCache[docID])` and `client.Send <- ...` read it. -/
def cacheAt (s : HubState) (d : String) : Payload :=
  (s.cache d).getD (.bytes "")

/-- `h.Presence[d]` with a missing entry read as empty. -/
def presList (s : HubState) (d : String) : List (String × UserStatus) :=
  (s.presence d).getD []

/-- The PRESENCE_UPDATE frame marshalled in `broadcastPresenceUpdate`
(hub.go line 312): no `UserID` field is set. -/
def presenceFrame (d : String) (statuses : List UserStatus) : WSMessage :=
  ⟨PresenceUpdateType, d, "", .presenceList statuses⟩

/-- Non-blocking delivery loop of `broadcastPresenceUpdate` (hub.go lines
314-321): a full queue is logged and skipped, delivery continues. -/
def presenceDeliver (s : HubState) (m : WSMessage) : List Conn → HubState
  | [] => s
  | c :: rest =>
    if (s.queues c.cid).length < CAP then
      presenceDeliver { s with queues := enqueue s.queues c.cid m } m rest
    else
      presenceDeliver s m rest

/-- `Hub.broadcastPresenceUpdate` (hub.go lines 282-322): when the
document has a presence entry, snapshot the statuses and the room under
the lock, then deliver outside the lock; with no presence entry both
lists stay nil and the function returns at the `len(clientsToSend) == 0`
check. -/
def broadcastPresence (s : HubState) (d : String) : HubState :=
  match s.presence d with
  | none => s
  | some pl =>
    let clients := roomAt s d
    if clients.isEmpty then s
    else presenceDeliver s (presenceFrame d (pl.map (·.2))) clients

/-- Content fanout loop of the broadcast case (hub.go lines 188-197).
Delivery is in room order; `default:` fires when the buffered channel is
full, and the branch executes `h.Unregister <- client`: a blocking send
on the unbuffered `Unregister` channel whose only receiver is this very
loop's own select, so the hub goroutine blocks forever (`stuck`) and no
later recipient is reached. -/
def deliverList (s : HubState) (m : WSMessage) : List Conn → HubState
  | [] => s
  | c :: rest =>
    if (s.queues c.cid).length < CAP then
      deliverList { s with queues := enqueue s.queues c.cid m } m rest
    else
      { s with stuck := true }

/-- The `case msg := <-h.Broadcast` handler of `Hub.Run` (hub.go lines
156-197): an UPDATE overwrites the cache and marks the document dirty;
the recipient list is every room member whose `UserID` differs from the
message's `UserID`; then the fanout loop runs. -/
def broadcastStep (s : HubState) (m : WSMessage) : HubState :=
  if s.stuck then s
  else
    let s1 :=
      if m.mtype = UpdateType then
        { s with cache := setKV s.cache m.docID (some m.payload),
                 dirty := addDirty s.dirty m.docID }
      else s
    deliverList s1 m ((roomAt s1 m.docID).filter (fun c => c.userID != m.userID))

/-- Room/presence/cache creation on first join (hub.go lines 84-96):
when the room is absent, create it, create its presence map and load
the document content from the store, defaulting to the empty Delta on
error. -/
def registerInitDoc (s : HubState) (c : Conn) : HubState :=
  match s.rooms c.docID with
  | some _ => s
  | none =>
    { s with rooms := setKV s.rooms c.docID (some []),
             presence := setKV s.presence c.docID (some []),
             cache := setKV s.cache c.docID (some ((s.db c.docID).getD defaultContent)) }

/-- Mutation phase of the register handler, performed under the lock
(hub.go lines 82-105): initialize the document if needed, insert the
client into the room and set its presence entry with the current time. -/
def registerMutate (s : HubState) (c : Conn) : HubState :=
  let s1 := registerInitDoc s c
  { s1 with rooms := setKV s1.rooms c.docID (some (addConn (roomAt s1 c.docID) c)),
            presence := setKV s1.presence c.docID
              (some (setAssoc (presList s1 c.docID) c.userID ⟨c.userID, 0, s.now⟩)),
            now := s.now + 1 }

/-- I/O phase of the register handler, after the lock is released
(hub.go lines 107-119): plain blocking channel sends of the initial
UPDATE (payload = cache snapshot) and the METADATA frame to the new
client, then the presence broadcast.  A blocking send on a full queue
can only complete when the owning write pump drains a frame; since the
claims under study concern the hub's behaviour, a send that would block
is modelled as sticking the hub (it can in fact resume if the client
drains, which no claim here depends on). -/
def registerSends (s2 : HubState) (c : Conn) (snap : Payload) : HubState :=
  if (s2.queues c.cid).length < CAP then
    let s3 := { s2 with queues := enqueue s2.queues c.cid ⟨UpdateType, c.docID, "", snap⟩ }
    if (s3.queues c.cid).length < CAP then
      let s4 := { s3 with
        queues := enqueue s3.queues c.cid ⟨MetadataType, c.docID, c.userID, .titleObj c.title⟩ }
      broadcastPresence s4 c.docID
    else { s3 with stuck := true }
  else { s2 with stuck := true }

/-- The `case client := <-h.Register` handler of `Hub.Run` (hub.go lines
80-119). -/
def registerStep (s : HubState) (c : Conn) : HubState :=
  if s.stuck then s
  else registerSends (registerMutate s c) c (cacheAt (registerMutate s c) c.docID)

/-- Locked removal phase of the unregister handler (hub.go lines
123-148): when the client is in its room, remove it, delete its
presence entry (keyed by userID, so any other tab of the same user
loses its presence entry too) and close its queue; when the room
empties, flush dirty content to the store and drop all per-document
state.  When the client is not found (room already deleted, e.g. after
a forced remove) nothing happens — in particular the queue is not
closed. -/
def unregisterRemove (s : HubState) (c : Conn) : HubState :=
  if c ∈ roomAt s c.docID then
    let mem' := (roomAt s c.docID).erase c
    if mem'.isEmpty then
      let sF :=
        if c.docID ∈ s.dirty then
          { s with dbLog := s.dbLog ++ [(c.docID, cacheAt s c.docID)],
                   db := setKV s.db c.docID (some (cacheAt s c.docID)) }
        else s
      { sF with rooms := setKV sF.rooms c.docID none,
                presence := setKV sF.presence c.docID none,
                cache := setKV sF.cache c.docID none,
                dirty := eraseDirty sF.dirty c.docID,
                closedCount := bump sF.closedCount c.cid }
    else
      { s with rooms := setKV s.rooms c.docID (some mem'),
               presence := setKV s.presence c.docID
                 (some (eraseAssoc (presList s c.docID) c.userID)),
               closedCount := bump s.closedCount c.cid }
  else s

/-- The `case client := <-h.Unregister` handler of `Hub.Run` (hub.go
lines 121-154): the locked removal phase above, then — after releasing
the lock — a presence broadcast whenever the room still exists. -/
def unregisterStep (s : HubState) (c : Conn) : HubState :=
  if s.stuck then s
  else
    let s1 := unregisterRemove s c
    if (s1.rooms c.docID).isSome then broadcastPresence s1 c.docID else s1

/-- `Client.readPump` processing of one inbound frame (client.go lines
102-127): overwrite `DocID`/`UserID` with the Connection's authoritative
values, drop an UPDATE from a non-writer, otherwise hand the message to
the Hub's broadcast case. -/
def clientSendStep (s : HubState) (c : Conn) (m : WSMessage) : HubState :=
  let m' := { m with docID := c.docID, userID := c.userID }
  if m'.mtype = UpdateType ∧ c.role ≠ RoleWriter then s
  else broadcastStep s m'

/-- `Hub.RemoveDocument` (hub.go lines 264-280): under the lock, delete
the cache entry, dirty flag and presence map, close every member's
transport (their read pumps then exit and emit ordinary unregister
events, modelled separately) and delete the room.  It does not touch
outbound queues and runs on the API goroutine, so it is not gated on the
hub loop being alive. -/
def removeDocumentStep (s : HubState) (d : String) : HubState :=
  { s with cache := setKV s.cache d none,
           dirty := eraseDirty s.dirty d,
           presence := setKV s.presence d none,
           rooms := setKV s.rooms d none }

/-- Snapshot phase of one SaveWorker tick (hub.go lines 214-234): under
the lock, copy the content bytes of every dirty document.  The worker
runs its ticks sequentially, so a new snapshot only happens when the
previous tick's writes are done.  The `OwnerID` the code collects here
is never used by the write statement. -/
def swSnapshotStep (s : HubState) : HubState :=
  if s.pendingSave.isEmpty then
    { s with pendingSave := s.dirty.map (fun d => (d, cacheAt s d)) }
  else s

/-- Write phase of the SaveWorker for one snapshotted document (hub.go
lines 238-258): issue `UpdateContent`; on failure leave the dirty flag
for the next tick; on success re-acquire the lock and clear the flag
only if the current cache still equals the snapshot. -/
def swWriteStep (s : HubState) (ok : Bool) : HubState :=
  match s.pendingSave with
  | [] => s
  | (d, content) :: rest =>
    let s1 := { s with dbLog := s.dbLog ++ [(d, content)], pendingSave := rest }
    if ok then
      let s2 := { s1 with db := setKV s1.db d (some content) }
      if cacheAt s2 d = content then { s2 with dirty := eraseDirty s2.dirty d }
      else s2
    else s1

/-- Events of the interleaving semantics: the four Hub operations, the
read-pump forwarding path, the two SaveWorker phases and the API-driven
forced remove. -/
inductive Ev where
  | register (c : Conn)
  | unregister (c : Conn)
  | broadcast (m : WSMessage)
  | clientSend (c : Conn) (m : WSMessage)
  | swSnapshot
  | swWrite (ok : Bool)
  | removeDocument (d : String)
deriving DecidableEq, Repr

def step (s : HubState) : Ev → HubState
  | .register c => registerStep s c
  | .unregister c => unregisterStep s c
  | .broadcast m => broadcastStep s m
  | .clientSend c m => clientSendStep s c m
  | .swSnapshot => swSnapshotStep s
  | .swWrite ok => swWriteStep s ok
  | .removeDocument d => removeDocumentStep s d

def run (s : HubState) (evs : List Ev) : HubState :=
  evs.foldl step s

/-- Fresh hub over a given document store, as built by `NewHub`. -/
def initState (db : String → Option Payload) : HubState :=
  ⟨fun _ => none, fun _ => none, fun _ => none, [], fun _ => [],
   fun _ => 0, db, [], [], false, 0⟩

/-- Number of PRESENCE_UPDATE frames in a queue. -/
def countPresence (q : List WSMessage) : Nat :=
  (q.filter (fun f => f.mtype == PresenceUpdateType)).length

/-- The statuses `broadcastPresenceUpdate` would serialize for `d`. -/
def presStatuses (s : HubState) (d : String) : List UserStatus :=
  (presList s d).map (·.2)

/-- Well-formedness of a per-document presence map: keys are distinct
and each entry's status carries its own key as `userID`. -/
def presListWF (l : List (String × UserStatus)) : Prop :=
  (l.map Prod.fst).Nodup ∧ ∀ p ∈ l, (p.2).userID = p.1

instance (l : List (String × UserStatus)) : Decidable (presListWF l) := by
  unfold presListWF; infer_instance

/-! ### Per-document SaveWorker tick (for the idempotence claim)

`saveTickDoc cacheAtSnapshot dirty dbOk cacheAtRecheck` is the body of
one SaveWorker tick restricted to a single docID (hub.go lines 217-255):
it returns the dirty flag after the tick and the number of
`UpdateContent` calls issued for that document.  `cacheAtRecheck` is the
cache content observed when the lock is re-acquired after the write. -/
def saveTickDoc (cacheAtSnapshot : Payload) (dirty : Bool) (dbOk : Bool)
    (cacheAtRecheck : Payload) : Bool × Nat :=
  if dirty then
    if dbOk then
      (if cacheAtRecheck = cacheAtSnapshot then false else true, 1)
    else (true, 1)
  else (false, 0)

/-! ### Write pump (client.go lines 131-147)

One select iteration of `Client.writePump`.  Go semantics: a receive
from a closed-and-drained channel returns the zero value immediately
with `ok = false`; the code ignores the `ok` flag, writes the zero-value
(`nil`) message as a text frame, discards the `WriteMessage` error and
loops.  The only `return` is in the ticker branch, when the ping write
fails. -/
inductive WPEvent where
  | queueFrame (m : WSMessage)
  | queueClosedRecv
  | pingTick (ok : Bool)
deriving DecidableEq, Repr

/-- One iteration: the frames written (as `Option` — `none` is the nil
frame from a closed-channel receive) and whether the pump returns. -/
def writePumpStep : WPEvent → List (Option WSMessage) × Bool
  | .queueFrame m => ([some m], false)
  | .queueClosedRecv => ([none], false)
  | .pingTick ok => ([], !ok)

/-- Run the write pump over a sequence of select outcomes, stopping at
the first iteration that returns. -/
def writePumpRun : List WPEvent → List (Option WSMessage) × Bool
  | [] => ([], false)
  | e :: rest =>
    let r := writePumpStep e
    if r.2 then (r.1, true)
    else
      let rr := writePumpRun rest
      (r.1 ++ rr.1, rr.2)

/-! ### Concrete executions used by the witnesses and counterexamples -/

/-- Empty document store. -/
def dbEmpty : String → Option Payload := fun _ => none

/-- First tab of user "A" (owner, hence writer) on document "D". -/
def connA1 : Conn := ⟨1, "A", "D", RoleWriter, "T"⟩

/-- Second tab of the same user "A" on the same document. -/
def connA2 : Conn := ⟨2, "A", "D", RoleWriter, "T"⟩

/-- A connection of the distinct user "B". -/
def connB : Conn := ⟨3, "B", "D", RoleReader, "T"⟩

/-- A connection of the distinct user "C". -/
def connC : Conn := ⟨4, "C", "D", RoleReader, "T"⟩

/-- Hub after user A opened two tabs and user B joined document "D". -/
def room3 : HubState :=
  run (initState dbEmpty) [.register connA1, .register connA2, .register connB]

/-- Hub after users A and B each joined document "D" with one tab. -/
def room2 : HubState :=
  run (initState dbEmpty) [.register connA1, .register connB]

/-- `room3` after one of A's tabs unregistered: the room still holds
A's other tab and B's tab. -/
def presencePost : HubState := step room3 (.unregister connA1)

/-- An UPDATE as sent by A's first tab, with client-chosen (spoofed)
identity fields. -/
def updInbound : WSMessage := ⟨UpdateType, "spoofDoc", "spoofUser", .bytes "X"⟩

/-- `room3` after A's first tab sent `updInbound` through its read pump. -/
def echoPost : HubState := step room3 (.clientSend connA1 updInbound)

/-- A client-sent METADATA frame (a server-originated-only type). -/
def metaInbound : WSMessage := ⟨MetadataType, "spoofDoc", "spoofUser", .bytes "junk"⟩

/-- `room3` after A's first tab sent `metaInbound`. -/
def forwardPost : HubState := step room3 (.clientSend connA1 metaInbound)

/-- Hub after: A joins "D", A edits (document dirty), the SaveWorker
snapshots the dirty document, then the API force-removes "D". -/
def removedState : HubState :=
  run (initState dbEmpty)
    [.register connA1, .clientSend connA1 updInbound, .swSnapshot, .removeDocument "D"]

/-- `removedState` after the SaveWorker performs its (successful) store
write for the snapshot it already holds. -/
def removedPostWrite : HubState := step removedState (.swWrite true)

/-- A complete forced-remove execution: A joins, the document is
force-removed, A's read pump exits and issues its unregister. -/
def forcedRun : HubState :=
  run (initState dbEmpty) [.register connA1, .removeDocument "D", .unregister connA1]

/-- A frame sitting in a saturated outbound queue. -/
def cursorFrame : WSMessage := ⟨CursorType, "D", "Z", .bytes "p"⟩

/-- A room of three users A, B, C where B's outbound queue is at its
capacity of 256 frames (B's write pump has stalled). -/
def slowState : HubState :=
  { rooms := fun d => if d = "D" then some [connA1, connB, connC] else none,
    presence := fun d =>
      if d = "D" then some [("A", ⟨"A", 0, 0⟩), ("B", ⟨"B", 0, 0⟩), ("C", ⟨"C", 0, 0⟩)]
      else none,
    cache := fun _ => none,
    dirty := [],
    queues := fun k => if k = 3 then List.replicate 256 cursorFrame else [],
    closedCount := fun _ => 0,
    db := dbEmpty,
    dbLog := [],
    pendingSave := [],
    stuck := false,
    now := 0 }

/-- `slowState` after the Hub processes a content broadcast from A. -/
def slowPost : HubState := step slowState (.broadcast ⟨UpdateType, "D", "A", .bytes "X"⟩)

/-- The state after the two blocking join sends of the register handler
(hub.go lines 109-115), named for use in the lemmas below. -/
def registerEnqueues (s2 : HubState) (c : Conn) (snap : Payload) : HubState :=
  { s2 with
    queues := enqueue (enqueue s2.queues c.cid ⟨UpdateType, c.docID, "", snap⟩) c.cid ⟨MetadataType, c.docID, c.userID, .titleObj c.title⟩ }

/-- Number of register events for connection `c` in an event list. -/
def regsOf (c : Conn) : List Ev → Nat
  | [] => 0
  | Ev.register c' :: t => (if c' = c then 1 else 0) + regsOf c t
  | _ :: t => regsOf c t

/-- The connections mentioned by register/unregister events. -/
def evConns : List Ev → List Conn
  | [] => []
  | Ev.register c :: t => c :: evConns t
  | Ev.unregister c :: t => c :: evConns t
  | _ :: t => evConns t

/-- Whether `c` is currently a member of its room (0 or 1). -/
def memb (s : HubState) (c : Conn) : Nat :=
  if c ∈ roomAt s c.docID then 1 else 0

/-! ## Theorems -/

set_option maxRecDepth 8192 in
/-- Claim C1 (code bug).  In a room of A, B, C where B's outbound queue
holds 256 frames, a content broadcast from A leaves the hub goroutine
permanently blocked on `h.Unregister <- client` (its only receiver is
this same loop): C, who comes after B in the fanout order, never
receives the frame, B is never actually unregistered (still in the
room, queue never closed), contradicting both the claim and the code's
own comment "Unregister the client to prevent blocking the hub". -/
theorem C1_hub_deadlock_on_full_queue :
    slowPost.stuck = true ∧
    queueOf slowPost connC.cid = [] ∧
    connB ∈ roomAt slowPost "D" ∧
    slowPost.closedCount connB.cid = 0 := by
  refine ⟨by decide, by decide, by decide, by decide⟩

/-- Claim C3.  Per-document SaveWorker idempotence: with no intervening
UPDATE (the cache equals the snapshot at both re-checks) and a
successful store write, two consecutive ticks issue at most one
`UpdateContent` call; a tick that starts dirty and writes successfully
clears the flag; and the flag is cleared only when the write succeeded
and the re-checked cache still equals the snapshot byte-for-byte. -/
theorem C3_dirty_save_idempotent :
    (∀ (content : Payload) (d0 : Bool),
      (saveTickDoc content d0 true content).2 +
        (saveTickDoc content (saveTickDoc content d0 true content).1 true content).2 ≤ 1) ∧
    (∀ content : Payload, (saveTickDoc content true true content).1 = false) ∧
    (∀ (snap : Payload) (dirt ok : Bool) (rechk : Payload),
      (saveTickDoc snap dirt ok rechk).1 = false →
      dirt = false ∨ (ok = true ∧ rechk = snap)) := by
  refine ⟨?_, ?_, ?_⟩
  · intro content d0
    cases d0 <;> simp [saveTickDoc]
  · intro content
    simp [saveTickDoc]
  · intro snap dirt ok rechk h
    cases dirt
    · exact Or.inl rfl
    · cases ok
      · simp [saveTickDoc] at h
      · refine Or.inr ⟨rfl, ?_⟩
        by_contra hne
        simp [saveTickDoc, hne] at h

/-- Witness for C3 at a concrete input. -/
theorem C3_dirty_save_idempotent_witness :
    (saveTickDoc (Payload.bytes "X") true true (Payload.bytes "X")).1 = false ∧
    (true = false ∨ (true = true ∧ Payload.bytes "X" = Payload.bytes "X")) :=
  ⟨by decide,
   C3_dirty_save_idempotent.2.2 (Payload.bytes "X") true true (Payload.bytes "X") (by decide)⟩

/-- Claim C4 (code bug).  After the SaveWorker has snapshotted dirty
document "D", a forced remove deletes the cache entry and dirty flag,
yet the worker's subsequent write still issues an `UpdateContent` call
for "D": before the write the store log is empty, after it the log
holds the stale write — a DocumentStore write strictly after the
forced remove, contradicting the code's own comment "Remove from
memory so it doesn't get auto-saved back to DB". -/
theorem C4_write_after_forced_remove :
    removedState.cache "D" = none ∧
    removedState.dirty = [] ∧
    removedState.dbLog = [] ∧
    removedPostWrite.dbLog = [("D", Payload.bytes "X")] := by
  refine ⟨by decide, by decide, by decide, by decide⟩

/-- Claim C9 (code bug).  `writePump` ignores the `ok` result of the
channel receive: once the outbound queue is closed and drained, every
queue-side select iteration immediately yields the zero value, writes
it as an empty text frame and continues; `n` such iterations write `n`
nil frames and the pump never exits through that path (the only exit is
a failed ping write). -/
theorem C9_writepump_no_clean_exit :
    (∀ n : Nat,
      writePumpRun (List.replicate n .queueClosedRecv) = (List.replicate n none, false)) ∧
    writePumpStep .queueClosedRecv = ([none], false) := by
  constructor
  · intro n
    induction n with
    | zero => rfl
    | succ k ih => simp [List.replicate_succ, writePumpRun, writePumpStep, ih]
  · rfl

/-- Counterexample to claim C5 as stated.  One of user A's two tabs
unregisters; the room is still non-empty and still contains A's other
tab (`connA2`), yet the single PRESENCE_UPDATE delivered to the
remaining members lists only user B: there is no entry for userID "A"
although "A" still has a Connection registered to the room — the
unregister handler deletes the whole presence entry for the userID. -/
theorem C5_presence_counterexample :
    connA2 ∈ roomAt presencePost "D" ∧
    connA2.userID = "A" ∧
    (presStatuses presencePost "D").map UserStatus.userID = ["B"] ∧
    queueOf presencePost connB.cid =
      queueOf room3 connB.cid ++ [presenceFrame "D" (presStatuses presencePost "D")] := by
  refine ⟨by decide, rfl, by decide, by decide⟩

/-- Counterexample to claim C6 as stated.  User A has two tabs
(`connA1`, `connA2`); A's first tab sends an UPDATE.  The distinct
Connection `connA2` of the same user receives nothing (fanout excludes
by userID, not by Connection), while B's Connection does receive the
frame. -/
theorem C6_second_tab_counterexample :
    connA2 ∈ roomAt room3 "D" ∧
    connA2 ≠ connA1 ∧
    connA2.userID = connA1.userID ∧
    queueOf echoPost connA2.cid = queueOf room3 connA2.cid ∧
    queueOf echoPost connB.cid =
      queueOf room3 connB.cid ++ [⟨UpdateType, "D", "A", .bytes "X"⟩] := by
  refine ⟨by decide, by decide, rfl, by decide, by decide⟩

/-- Counterexample to claim C7 as stated.  A client-sent METADATA frame
is not ignored: the read pump's role switch only handles UPDATE, so the
frame is forwarded to the Hub and fanned out — B's Connection receives
it (with the sender's authoritative identity).  The cache and dirty
state are indeed untouched. -/
theorem C7_forwarded_counterexample :
    metaInbound.mtype = MetadataType ∧
    queueOf forwardPost connB.cid =
      queueOf room3 connB.cid ++ [⟨MetadataType, "D", "A", .bytes "junk"⟩] ∧
    forwardPost.cache "D" = room3.cache "D" ∧
    forwardPost.dirty = room3.dirty := by
  refine ⟨rfl, by decide, by decide, by decide⟩

/-- Counterexample to claim C8 as stated.  A complete execution that
ends with a forced remove: A joins "D", the document is force-removed
(the room entry is deleted), then A's read pump exits and issues its
unregister, which finds no room and is a no-op.  A's outbound queue is
closed zero times, not exactly once. -/
theorem C8_never_closed_counterexample :
    forcedRun.closedCount connA1.cid = 0 ∧
    (forcedRun.rooms "D").isNone = true ∧
    forcedRun.stuck = false := by
  refine ⟨by decide, by decide, by decide⟩

/-- The presence delivery loop does not touch the cache. -/
theorem presenceDeliver_cache (l : List Conn) (s : HubState) (m : WSMessage) :
    (presenceDeliver s m l).cache = s.cache := by
  induction l generalizing s with
  | nil => rfl
  | cons c rest ih =>
    dsimp [presenceDeliver]
    split
    · exact ih _
    · exact ih _

/-- The presence broadcast does not touch the cache. -/
theorem broadcastPresence_cache (s : HubState) (d : String) :
    (broadcastPresence s d).cache = s.cache := by
  unfold broadcastPresence
  split
  · rfl
  · dsimp only
    split
    · rfl
    · exact presenceDeliver_cache _ _ _

/-- The presence delivery loop only appends to each queue. -/
theorem presenceDeliver_queues_ext (l : List Conn) (s : HubState) (m : WSMessage) (k : Nat) :
    ∃ t, (presenceDeliver s m l).queues k = s.queues k ++ t := by
  induction l generalizing s with
  | nil => exact ⟨[], (List.append_nil _).symm⟩
  | cons c rest ih =>
    dsimp [presenceDeliver]
    split
    · rcases ih { s with queues := enqueue s.queues c.cid m } with ⟨t, ht⟩
      by_cases hk : k = c.cid
      · subst hk
        refine ⟨m :: t, ?_⟩
        rw [ht]
        dsimp [enqueue]
        simp
      · refine ⟨t, ?_⟩
        rw [ht]
        dsimp [enqueue]
        simp [hk]
    · exact ih s

/-- The presence broadcast only appends to each queue. -/
theorem broadcastPresence_queues_ext (s : HubState) (d : String) (k : Nat) :
    ∃ t, (broadcastPresence s d).queues k = s.queues k ++ t := by
  unfold broadcastPresence
  split
  · exact ⟨[], (List.append_nil _).symm⟩
  · dsimp only
    split
    · exact ⟨[], (List.append_nil _).symm⟩
    · exact presenceDeliver_queues_ext _ _ _ _

/-- A queue equal to `pre` before a presence broadcast still starts
with `pre` afterwards. -/
theorem broadcastPresence_queue_keeps (S : HubState) (d : String) (k : Nat)
    (pre : List WSMessage) (hS : S.queues k = pre) :
    ∃ t, (broadcastPresence S d).queues k = pre ++ t := by
  rcases broadcastPresence_queues_ext S d k with ⟨t, ht⟩
  exact ⟨t, by rw [ht, hS]⟩

/-- The locked mutation phase of register does not touch the queues. -/
theorem registerMutate_queues (s : HubState) (c : Conn) :
    (registerMutate s c).queues = s.queues := by
  unfold registerMutate registerInitDoc
  split <;> rfl

/-- The send phase of register does not touch the cache. -/
theorem registerSends_cache (s : HubState) (c : Conn) (snap : Payload) :
    (registerSends s c snap).cache = s.cache := by
  unfold registerSends
  split
  · dsimp only
    split
    · rw [broadcastPresence_cache]
    · rfl
  · rfl

/-- On an empty queue, the send phase of register enqueues the initial
UPDATE and the METADATA frames first, in that order. -/
theorem registerSends_queue_self (s2 : HubState) (c : Conn) (snap : Payload)
    (hq2 : s2.queues c.cid = []) :
    ∃ t, (registerSends s2 c snap).queues c.cid =
      [⟨UpdateType, c.docID, "", snap⟩,
       ⟨MetadataType, c.docID, c.userID, .titleObj c.title⟩] ++ t := by
  unfold registerSends
  simp only [hq2, enqueue, if_pos rfl, List.length_nil, List.nil_append, CAP]
  rw [if_pos (by norm_num)]
  exact broadcastPresence_queue_keeps _ _ _ _ (by simp [enqueue, hq2])

/-- Claim C10.  Join snapshot: for a register of a fresh Connection
(empty outbound queue) on a live hub, the first frame enqueued is an
UPDATE whose payload equals the document's cache at registration time
(the value the cache also holds right after the step), and the second
is a METADATA frame carrying the document title. -/
theorem C10_join_snapshot (s : HubState) (c : Conn)
    (hst : s.stuck = false) (hq : queueOf s c.cid = []) :
    (queueOf (step s (.register c)) c.cid).take 2 =
      [⟨UpdateType, c.docID, "", cacheAt (step s (.register c)) c.docID⟩,
       ⟨MetadataType, c.docID, c.userID, .titleObj c.title⟩] := by
  have hstep : step s (.register c)
      = registerSends (registerMutate s c) c (cacheAt (registerMutate s c) c.docID) := by
    dsimp [step, registerStep]
    rw [hst]
    rfl
  have hq2 : (registerMutate s c).queues c.cid = [] := by
    rw [registerMutate_queues]; exact hq
  have hcache : cacheAt (step s (.register c)) c.docID
      = cacheAt (registerMutate s c) c.docID := by
    rw [hstep]; unfold cacheAt; rw [registerSends_cache]
  rcases registerSends_queue_self (registerMutate s c) c
      (cacheAt (registerMutate s c) c.docID) hq2 with ⟨t, ht⟩
  rw [hcache, hstep]
  dsimp [queueOf]
  rw [ht]
  exact List.take_left' rfl

/-- Witness for C10: registering A's first tab on a fresh hub. -/
theorem C10_join_snapshot_witness :
    (initState dbEmpty).stuck = false ∧
    queueOf (initState dbEmpty) connA1.cid = [] ∧
    (queueOf (step (initState dbEmpty) (.register connA1)) connA1.cid).take 2 =
      [⟨UpdateType, connA1.docID, "",
          cacheAt (step (initState dbEmpty) (.register connA1)) connA1.docID⟩,
       ⟨MetadataType, connA1.docID, connA1.userID, .titleObj connA1.title⟩] :=
  ⟨rfl, rfl, C10_join_snapshot (initState dbEmpty) connA1 rfl rfl⟩

/-- Any frame present in any queue after the fanout loop was already
there before, or is the broadcast message itself. -/
theorem deliverList_mem {l : List Conn} {s : HubState} {m f : WSMessage} {k : Nat}
    (h : f ∈ (deliverList s m l).queues k) : f ∈ s.queues k ∨ f = m := by
  induction l generalizing s with
  | nil => exact Or.inl h
  | cons c rest ih =>
    dsimp [deliverList] at h
    split at h
    · rcases ih h with h' | h'
      · by_cases hk : k = c.cid
        · subst hk
          dsimp [enqueue] at h'
          simp only [if_pos rfl] at h'
          rcases List.mem_append.1 h' with h'' | h''
          · exact Or.inl h''
          · simp only [List.mem_singleton] at h''
            exact Or.inr h''
        · dsimp [enqueue] at h'
          simp only [if_neg hk] at h'
          exact Or.inl h'
      · exact Or.inr h'
    · exact Or.inl h

/-- Claim C2.  Spoof resistance: any frame that appears in any outbound
queue as a result of a client sending a message on Connection `c`
carries exactly the `user_id` and `document_id` established for `c` at
registration time, whatever identity fields the client put in the
frame. -/
theorem C2_spoof_resistance (s : HubState) (c : Conn) (m : WSMessage) (k : Nat)
    (f : WSMessage) (hf : f ∈ queueOf (step s (.clientSend c m)) k) :
    f ∈ queueOf s k ∨ (f.userID = c.userID ∧ f.docID = c.docID) := by
  dsimp [step, clientSendStep, queueOf] at hf ⊢
  split at hf
  · exact Or.inl hf
  · dsimp [broadcastStep] at hf
    split at hf
    · exact Or.inl hf
    · rcases deliverList_mem hf with h' | h'
      · split at h'
        · exact Or.inl h'
        · exact Or.inl h'
      · subst h'
        exact Or.inr ⟨rfl, rfl⟩

/-- Witness for C2: in a two-user room, the frame B receives after A
sends a spoofed UPDATE carries A's authoritative identity. -/
theorem C2_spoof_resistance_witness :
    (⟨UpdateType, "D", "A", .bytes "X"⟩ : WSMessage) ∈
      queueOf (step room2 (.clientSend connA1 updInbound)) connB.cid ∧
    ((⟨UpdateType, "D", "A", .bytes "X"⟩ : WSMessage) ∈ queueOf room2 connB.cid ∨
      ((⟨UpdateType, "D", "A", .bytes "X"⟩ : WSMessage).userID = connA1.userID ∧
        (⟨UpdateType, "D", "A", .bytes "X"⟩ : WSMessage).docID = connA1.docID)) :=
  ⟨by decide, C2_spoof_resistance room2 connA1 updInbound connB.cid _ (by decide)⟩

/-- In a list of connections with pairwise-distinct `cid`s, the `cid`
determines the connection. -/
theorem nodup_cid_inj {l : List Conn} (h : (l.map Conn.cid).Nodup) {a b : Conn}
    (ha : a ∈ l) (hb : b ∈ l) (hab : a.cid = b.cid) : a = b :=
  List.inj_on_of_nodup_map h ha hb hab

/-- Exact effect of the content fanout loop when no recipient's queue
is full and the recipients have distinct `cid`s: every recipient queue
gets the frame appended, every other queue is untouched. -/
theorem deliverList_eq (l : List Conn) (s : HubState) (m : WSMessage) (k : Nat)
    (hsp : ∀ c ∈ l, (s.queues c.cid).length < CAP)
    (hnd : (l.map Conn.cid).Nodup) :
    (deliverList s m l).queues k =
      if k ∈ l.map Conn.cid then s.queues k ++ [m] else s.queues k := by
  induction l generalizing s with
  | nil => simp [deliverList]
  | cons c rest ih =>
    dsimp [deliverList]
    rw [if_pos (hsp c (List.mem_cons_self c rest))]
    have hndr : (rest.map Conn.cid).Nodup := (List.nodup_cons.1 hnd).2
    have hcnotin : c.cid ∉ rest.map Conn.cid := (List.nodup_cons.1 hnd).1
    have hsp' : ∀ c' ∈ rest,
        (({ s with queues := enqueue s.queues c.cid m }).queues c'.cid).length < CAP := by
      intro c' hc'
      dsimp [enqueue]
      rw [if_neg ?hne]
      case hne =>
        intro hcontra
        exact hcnotin (hcontra ▸ List.mem_map_of_mem Conn.cid hc')
      exact hsp c' (List.mem_cons_of_mem c hc')
    rw [ih _ hsp' hndr]
    dsimp [enqueue]
    by_cases hk : k ∈ rest.map Conn.cid
    · rw [if_pos hk, if_pos (List.mem_cons_of_mem _ hk)]
      rw [if_neg ?hne2]
      case hne2 =>
        intro hcontra
        exact hcnotin (hcontra ▸ hk)
    · rw [if_neg hk]
      by_cases hkc : k = c.cid
      · rw [if_pos hkc, if_pos (by simp [hkc])]
      · rw [if_neg hkc, if_neg (by simp [hkc, hk])]

/-- The content fanout loop does not touch the cache. -/
theorem deliverList_cache (l : List Conn) (s : HubState) (m : WSMessage) :
    (deliverList s m l).cache = s.cache := by
  induction l generalizing s with
  | nil => rfl
  | cons c rest ih =>
    dsimp [deliverList]
    split
    · exact ih _
    · rfl

/-- The content fanout loop does not touch the dirty set. -/
theorem deliverList_dirty (l : List Conn) (s : HubState) (m : WSMessage) :
    (deliverList s m l).dirty = s.dirty := by
  induction l generalizing s with
  | nil => rfl
  | cons c rest ih =>
    dsimp [deliverList]
    split
    · exact ih _
    · rfl

/-- Shape of the broadcast case on a live hub: a fanout of the message,
over the room filtered by `userID`, from a state with unchanged
queues. -/
theorem broadcastStep_eq_deliver (s : HubState) (m : WSMessage) (hst : s.stuck = false) :
    ∃ s1 : HubState, step s (.broadcast m) =
        deliverList s1 m ((roomAt s m.docID).filter (fun c => c.userID != m.userID)) ∧
      s1.queues = s.queues := by
  dsimp [step, broadcastStep]
  rw [hst]
  simp only [Bool.false_eq_true, if_false]
  by_cases hm : m.mtype = UpdateType
  · rw [if_pos hm]
    exact ⟨_, rfl, rfl⟩
  · rw [if_neg hm]
    exact ⟨s, rfl, rfl⟩

/-- A non-UPDATE broadcast is exactly a fanout from the unchanged
state. -/
theorem broadcastStep_nonupdate (s : HubState) (m : WSMessage)
    (hst : s.stuck = false) (hm : m.mtype ≠ UpdateType) :
    step s (.broadcast m) =
      deliverList s m ((roomAt s m.docID).filter (fun c => c.userID != m.userID)) := by
  dsimp [step, broadcastStep]
  rw [hst]
  simp only [Bool.false_eq_true, if_false]
  rw [if_neg hm]

/-- Claim C6, amended.  For a broadcast on a live hub with no saturated
recipient queue, the recipient set is every Connection in the room
whose `userID` differs from the message's `userID`: a Connection whose
user matches the sender's — the originator itself, but also any other
tab of the same user — receives nothing, and every Connection of a
different user receives exactly the frame. -/
theorem C6_fanout_by_userID (s : HubState) (m : WSMessage) (c : Conn)
    (hst : s.stuck = false)
    (hsp : ∀ c' ∈ roomAt s m.docID, (queueOf s c'.cid).length < CAP)
    (hnd : ((roomAt s m.docID).map Conn.cid).Nodup)
    (hc : c ∈ roomAt s m.docID) :
    (c.userID ≠ m.userID →
      queueOf (step s (.broadcast m)) c.cid = queueOf s c.cid ++ [m]) ∧
    (c.userID = m.userID →
      queueOf (step s (.broadcast m)) c.cid = queueOf s c.cid) := by
  obtain ⟨s1, hs1, hq1⟩ := broadcastStep_eq_deliver s m hst
  have hsub : List.Sublist ((roomAt s m.docID).filter (fun c => c.userID != m.userID))
      (roomAt s m.docID) :=
    List.filter_sublist _
  have hsp' : ∀ c' ∈ (roomAt s m.docID).filter (fun c => c.userID != m.userID),
      (s1.queues c'.cid).length < CAP := by
    intro c' hc'
    rw [hq1]
    exact hsp c' (hsub.mem hc')
  have hnd' : (((roomAt s m.docID).filter (fun c => c.userID != m.userID)).map Conn.cid).Nodup :=
    hnd.sublist (hsub.map Conn.cid)
  constructor
  · intro hne
    dsimp [queueOf]
    rw [hs1, deliverList_eq _ _ _ _ hsp' hnd', hq1]
    rw [if_pos]
    exact List.mem_map_of_mem Conn.cid (List.mem_filter.2 ⟨hc, by simp [hne]⟩)
  · intro heq
    dsimp [queueOf]
    rw [hs1, deliverList_eq _ _ _ _ hsp' hnd', hq1]
    rw [if_neg]
    intro hmem
    rcases List.mem_map.1 hmem with ⟨c', hc', hcid⟩
    have hc'room : c' ∈ roomAt s m.docID := hsub.mem hc'
    have : c' = c := nodup_cid_inj hnd hc'room hc hcid
    subst this
    have := (List.mem_filter.1 hc').2
    simp [heq] at this

/-- Witness for the amended C6: B's connection (different user)
receives the frame; B would not if its user matched the sender's. -/
theorem C6_fanout_by_userID_witness :
    (∀ c' ∈ roomAt room3 "D", (queueOf room3 c'.cid).length < CAP) ∧
    ((roomAt room3 "D").map Conn.cid).Nodup ∧
    ((connB.userID ≠ ("A" : String) →
        queueOf (step room3 (.broadcast ⟨UpdateType, "D", "A", .bytes "X"⟩)) connB.cid =
          queueOf room3 connB.cid ++ [⟨UpdateType, "D", "A", .bytes "X"⟩]) ∧
      (connB.userID = ("A" : String) →
        queueOf (step room3 (.broadcast ⟨UpdateType, "D", "A", .bytes "X"⟩)) connB.cid =
          queueOf room3 connB.cid)) :=
  ⟨by decide, by decide,
    C6_fanout_by_userID room3 ⟨UpdateType, "D", "A", .bytes "X"⟩ connB rfl
      (by decide) (by decide) (by decide)⟩

/-- Claim C7, amended.  A well-formed client-sent JOIN, LEAVE,
PRESENCE_UPDATE or METADATA frame causes no cache change and no
dirty-marking, but it is not ignored: the read pump's role switch only
filters UPDATE, so the frame is forwarded to the Hub and fanned out
(with the sender's authoritative identity) to every room Connection of
a different user. -/
theorem C7_forward_types (s : HubState) (c : Conn) (m : WSMessage)
    (hty : m.mtype = JoinType ∨ m.mtype = LeaveType ∨
      m.mtype = PresenceUpdateType ∨ m.mtype = MetadataType)
    (hst : s.stuck = false)
    (hsp : ∀ c' ∈ roomAt s c.docID, (queueOf s c'.cid).length < CAP)
    (hnd : ((roomAt s c.docID).map Conn.cid).Nodup) :
    (step s (.clientSend c m)).cache = s.cache ∧
    (step s (.clientSend c m)).dirty = s.dirty ∧
    ∀ c' ∈ roomAt s c.docID, c'.userID ≠ c.userID →
      queueOf (step s (.clientSend c m)) c'.cid =
        queueOf s c'.cid ++ [{ m with docID := c.docID, userID := c.userID }] := by
  have hmty : m.mtype ≠ UpdateType := by
    rcases hty with h | h | h | h <;> rw [h] <;> decide
  have hstep : step s (.clientSend c m)
      = step s (.broadcast { m with docID := c.docID, userID := c.userID }) := by
    dsimp [step, clientSendStep]
    rw [if_neg]
    intro hcontra
    exact hmty hcontra.1
  have hbr := broadcastStep_nonupdate s { m with docID := c.docID, userID := c.userID } hst hmty
  rw [hstep, hbr]
  refine ⟨deliverList_cache _ _ _, deliverList_dirty _ _ _, ?_⟩
  intro c' hc' hne
  have hsub : List.Sublist
      ((roomAt s c.docID).filter
        (fun x => x.userID != ({ m with docID := c.docID, userID := c.userID } : WSMessage).userID))
      (roomAt s c.docID) :=
    List.filter_sublist _
  have hsp' : ∀ cl ∈ (roomAt s c.docID).filter
      (fun x => x.userID != ({ m with docID := c.docID, userID := c.userID } : WSMessage).userID),
      (s.queues cl.cid).length < CAP := by
    intro cl hcl
    exact hsp cl (hsub.mem hcl)
  have hnd' := hnd.sublist (hsub.map Conn.cid)
  dsimp [queueOf]
  rw [deliverList_eq _ _ _ _ hsp' hnd']
  rw [if_pos]
  exact List.mem_map_of_mem Conn.cid (List.mem_filter.2 ⟨hc', by simp [hne]⟩)

/-- Witness for the amended C7: A sends a METADATA frame; the cache and
dirty set are untouched and B's connection receives the frame. -/
theorem C7_forward_types_witness :
    metaInbound.mtype = MetadataType ∧
    (∀ c' ∈ roomAt room3 "D", (queueOf room3 c'.cid).length < CAP) ∧
    ((step room3 (.clientSend connA1 metaInbound)).cache = room3.cache ∧
      (step room3 (.clientSend connA1 metaInbound)).dirty = room3.dirty ∧
      ∀ c' ∈ roomAt room3 "D", c'.userID ≠ connA1.userID →
        queueOf (step room3 (.clientSend connA1 metaInbound)) c'.cid =
          queueOf room3 c'.cid ++
            [{ metaInbound with docID := connA1.docID, userID := connA1.userID }]) :=
  ⟨rfl, by decide,
    C7_forward_types room3 connA1 metaInbound (Or.inr (Or.inr (Or.inr rfl))) rfl
      (by decide) (by decide)⟩

theorem presenceDeliver_rooms (l : List Conn) (s : HubState) (m : WSMessage) :
    (presenceDeliver s m l).rooms = s.rooms := by
  induction l generalizing s with
  | nil => rfl
  | cons c rest ih => dsimp [presenceDeliver]; split <;> exact ih _

theorem presenceDeliver_presence (l : List Conn) (s : HubState) (m : WSMessage) :
    (presenceDeliver s m l).presence = s.presence := by
  induction l generalizing s with
  | nil => rfl
  | cons c rest ih => dsimp [presenceDeliver]; split <;> exact ih _

theorem broadcastPresence_rooms (s : HubState) (d : String) :
    (broadcastPresence s d).rooms = s.rooms := by
  unfold broadcastPresence
  split
  · rfl
  · dsimp only
    split
    · rfl
    · exact presenceDeliver_rooms _ _ _

theorem broadcastPresence_presence (s : HubState) (d : String) :
    (broadcastPresence s d).presence = s.presence := by
  unfold broadcastPresence
  split
  · rfl
  · dsimp only
    split
    · rfl
    · exact presenceDeliver_presence _ _ _

theorem presenceDeliver_eq (l : List Conn) (s : HubState) (m : WSMessage) (k : Nat)
    (hsp : ∀ c ∈ l, (s.queues c.cid).length < CAP)
    (hnd : (l.map Conn.cid).Nodup) :
    (presenceDeliver s m l).queues k =
      if k ∈ l.map Conn.cid then s.queues k ++ [m] else s.queues k := by
  induction l generalizing s with
  | nil => simp [presenceDeliver]
  | cons c rest ih =>
    dsimp [presenceDeliver]
    rw [if_pos (hsp c (List.mem_cons_self c rest))]
    have hndr : (rest.map Conn.cid).Nodup := (List.nodup_cons.1 hnd).2
    have hcnotin : c.cid ∉ rest.map Conn.cid := (List.nodup_cons.1 hnd).1
    have hsp' : ∀ c' ∈ rest,
        (({ s with queues := enqueue s.queues c.cid m }).queues c'.cid).length < CAP := by
      intro c' hc'
      dsimp [enqueue]
      rw [if_neg ?hne]
      case hne =>
        intro hcontra
        exact hcnotin (hcontra ▸ List.mem_map_of_mem Conn.cid hc')
      exact hsp c' (List.mem_cons_of_mem c hc')
    rw [ih _ hsp' hndr]
    dsimp [enqueue]
    by_cases hk : k ∈ rest.map Conn.cid
    · rw [if_pos hk, if_pos (List.mem_cons_of_mem _ hk)]
      rw [if_neg ?hne2]
      case hne2 =>
        intro hcontra
        exact hcnotin (hcontra ▸ hk)
    · rw [if_neg hk]
      by_cases hkc : k = c.cid
      · rw [if_pos hkc, if_pos (by simp [hkc])]
      · rw [if_neg hkc, if_neg (by simp [hkc, hk])]

theorem broadcastPresence_eq (s : HubState) (d : String) (pl : List (String × UserStatus))
    (hpre : s.presence d = some pl) (hcl : (roomAt s d).isEmpty = false) :
    broadcastPresence s d =
      presenceDeliver s (presenceFrame d (pl.map (·.2))) (roomAt s d) := by
  unfold broadcastPresence
  rw [hpre]
  dsimp only
  rw [hcl]
  rfl

theorem countPresence_append (a b : List WSMessage) :
    countPresence (a ++ b) = countPresence a + countPresence b := by
  unfold countPresence
  rw [List.filter_append, List.length_append]

theorem presListWF_eraseAssoc (l : List (String × UserStatus)) (k : String)
    (h : presListWF l) : presListWF (eraseAssoc l k) := by
  rcases h with ⟨hnd, hc⟩
  constructor
  · exact hnd.sublist ((List.filter_sublist l).map Prod.fst)
  · intro p hp
    exact hc p ((List.filter_sublist l).mem hp)

theorem setAssoc_keys_cases (l : List (String × UserStatus)) (k : String) (v : UserStatus) :
    (setAssoc l k v).map Prod.fst = l.map Prod.fst ∨
    (setAssoc l k v).map Prod.fst = l.map Prod.fst ++ [k] ∧ k ∉ l.map Prod.fst := by
  induction l with
  | nil => exact Or.inr ⟨rfl, by simp⟩
  | cons p t ih =>
    dsimp [setAssoc]
    by_cases hk : p.1 = k
    · rw [if_pos hk]
      exact Or.inl (by simp [hk])
    · rw [if_neg hk]
      rcases ih with h | ⟨h, hnk⟩
      · exact Or.inl (by simp [h])
      · refine Or.inr ⟨by simp [h], ?_⟩
        simp only [List.map_cons, List.mem_cons]
        rintro (hcontra | hcontra)
        · exact hk hcontra.symm
        · exact hnk hcontra

theorem setAssoc_mem (l : List (String × UserStatus)) (k : String) (v : UserStatus)
    (p : String × UserStatus) (hp : p ∈ setAssoc l k v) : p ∈ l ∨ p = (k, v) := by
  induction l with
  | nil => simp [setAssoc] at hp; exact Or.inr hp
  | cons q t ih =>
    dsimp [setAssoc] at hp
    by_cases hk : q.1 = k
    · rw [if_pos hk] at hp
      rcases List.mem_cons.1 hp with h | h
      · exact Or.inr h
      · exact Or.inl (List.mem_cons_of_mem _ h)
    · rw [if_neg hk] at hp
      rcases List.mem_cons.1 hp with h | h
      · exact Or.inl (List.mem_cons.2 (Or.inl h))
      · rcases ih h with h' | h'
        · exact Or.inl (List.mem_cons_of_mem _ h')
        · exact Or.inr h'

theorem presListWF_setAssoc (l : List (String × UserStatus)) (k : String) (v : UserStatus)
    (h : presListWF l) (hv : v.userID = k) : presListWF (setAssoc l k v) := by
  rcases h with ⟨hnd, hc⟩
  constructor
  · rcases setAssoc_keys_cases l k v with hcase | ⟨hcase, hnk⟩
    · rw [hcase]; exact hnd
    · rw [hcase]
      rw [List.nodup_append]
      exact ⟨hnd, List.nodup_singleton k, by simpa using hnk⟩
  · intro p hp
    rcases setAssoc_mem l k v p hp with h' | h'
    · exact hc p h'
    · rw [h']; exact hv



theorem mem_addConn_self (l : List Conn) (c : Conn) : c ∈ addConn l c := by
  unfold addConn
  by_cases h : c ∈ l
  · rw [if_pos h]; exact h
  · rw [if_neg h]; simp

theorem registerMutate_roomAt (s : HubState) (c : Conn) :
    roomAt (registerMutate s c) c.docID = addConn (roomAt s c.docID) c := by
  unfold registerMutate roomAt
  dsimp [setKV]
  rw [if_pos rfl]
  unfold registerInitDoc
  rcases h : s.rooms c.docID with _ | mem
  · dsimp [roomAt, setKV]
    rw [if_pos rfl]
    rfl
  · dsimp only
    rw [h]
    rfl

theorem registerMutate_presence (s : HubState) (c : Conn) :
    (registerMutate s c).presence c.docID =
      some (setAssoc (presList (registerInitDoc s c) c.docID) c.userID
        ⟨c.userID, 0, s.now⟩) := by
  unfold registerMutate
  dsimp [setKV]
  rw [if_pos rfl]

theorem registerInitDoc_presListWF (s : HubState) (c : Conn)
    (hwf : presListWF (presList s c.docID)) :
    presListWF (presList (registerInitDoc s c) c.docID) := by
  unfold registerInitDoc
  rcases h : s.rooms c.docID with _ | mem
  · dsimp [presList, setKV]
    rw [if_pos rfl]
    exact ⟨List.nodup_nil, by simp⟩
  · exact hwf


theorem registerSends_eq (s2 : HubState) (c : Conn) (snap : Payload)
    (h2 : (s2.queues c.cid).length + 2 ≤ CAP) :
    registerSends s2 c snap = broadcastPresence (registerEnqueues s2 c snap) c.docID := by
  unfold registerEnqueues
  unfold registerSends
  rw [if_pos (by omega)]
  dsimp only
  rw [if_pos ?hlen]
  case hlen =>
    dsimp [enqueue]
    rw [if_pos rfl, List.length_append]
    simp only [List.length_singleton]
    omega



theorem registerEnqueues_queues_self (s2 : HubState) (c : Conn) (snap : Payload) :
    (registerEnqueues s2 c snap).queues c.cid =
      s2.queues c.cid ++ [⟨UpdateType, c.docID, "", snap⟩,
        ⟨MetadataType, c.docID, c.userID, .titleObj c.title⟩] := by
  dsimp [registerEnqueues, enqueue]
  rw [if_pos rfl, if_pos rfl, List.append_assoc]
  rfl

theorem registerEnqueues_queues_other (s2 : HubState) (c : Conn) (snap : Payload)
    (k : Nat) (hk : k ≠ c.cid) :
    (registerEnqueues s2 c snap).queues k = s2.queues k := by
  dsimp [registerEnqueues, enqueue]
  rw [if_neg hk, if_neg hk]

theorem unregisterRemove_not_mem (s : HubState) (c0 : Conn)
    (hmem : c0 ∉ roomAt s c0.docID) : unregisterRemove s c0 = s := by
  unfold unregisterRemove
  rw [if_neg hmem]

theorem unregisterRemove_empty_rooms (s : HubState) (c0 : Conn)
    (hmem : c0 ∈ roomAt s c0.docID)
    (hempty : ((roomAt s c0.docID).erase c0).isEmpty = true) :
    (unregisterRemove s c0).rooms c0.docID = none := by
  unfold unregisterRemove
  rw [if_pos hmem]
  dsimp only
  rw [hempty, if_pos rfl]
  dsimp [setKV]
  rw [if_pos rfl]

theorem unregisterRemove_nonempty (s : HubState) (c0 : Conn)
    (hmem : c0 ∈ roomAt s c0.docID)
    (hempty : ((roomAt s c0.docID).erase c0).isEmpty = false) :
    unregisterRemove s c0 =
      { s with rooms := setKV s.rooms c0.docID (some ((roomAt s c0.docID).erase c0)),
               presence := setKV s.presence c0.docID
                 (some (eraseAssoc (presList s c0.docID) c0.userID)),
               closedCount := bump s.closedCount c0.cid } := by
  unfold unregisterRemove
  rw [if_pos hmem]
  dsimp only
  rw [hempty, if_neg Bool.false_ne_true]



theorem list_isEmpty_false_of_mem {α : Type} {l : List α} {a : α} (h : a ∈ l) :
    l.isEmpty = false := by
  cases l with
  | nil => exact absurd h (List.not_mem_nil a)
  | cons x t => rfl

theorem C5_unregister_aux (s : HubState) (c0 c : Conn)
    (hst : s.stuck = false)
    (hwf : presListWF (presList s c0.docID))
    (hpr : s.presence c0.docID = none → s.rooms c0.docID = none)
    (hnd : ((roomAt (step s (.unregister c0)) c0.docID).map Conn.cid).Nodup)
    (hsp : ∀ c' ∈ roomAt (step s (.unregister c0)) c0.docID,
      (queueOf s c'.cid).length + 3 ≤ CAP)
    (hc : c ∈ roomAt (step s (.unregister c0)) c0.docID) :
    (∃ pre, queueOf (step s (.unregister c0)) c.cid =
        pre ++ [presenceFrame c0.docID (presStatuses (step s (.unregister c0)) c0.docID)] ∧
      countPresence pre = countPresence (queueOf s c.cid)) ∧
    presListWF (presList (step s (.unregister c0)) c0.docID) := by
  have hstep : step s (.unregister c0) =
      (if ((unregisterRemove s c0).rooms c0.docID).isSome then
        broadcastPresence (unregisterRemove s c0) c0.docID
      else unregisterRemove s c0) := by
    dsimp [step, unregisterStep]
    rw [hst]
    rfl
  by_cases hmem : c0 ∈ roomAt s c0.docID
  · by_cases hempty : ((roomAt s c0.docID).erase c0).isEmpty = true
    · -- room empties: the step deletes the room, contradicting hc
      exfalso
      have hrn := unregisterRemove_empty_rooms s c0 hmem hempty
      rw [hstep, hrn] at hc
      simp only [Option.isSome_none, Bool.false_eq_true, if_false] at hc
      have : roomAt (unregisterRemove s c0) c0.docID = [] := by
        unfold roomAt
        rw [hrn]
        rfl
      rw [this] at hc
      exact List.not_mem_nil c hc
    · -- room survives with members mem'
      have hempty' : ((roomAt s c0.docID).erase c0).isEmpty = false :=
        Bool.eq_false_iff.2 hempty
      have hs1 := unregisterRemove_nonempty s c0 hmem hempty'
      set mem' := (roomAt s c0.docID).erase c0 with hmem'
      have hrooms1 : (unregisterRemove s c0).rooms c0.docID = some mem' := by
        rw [hs1]
        dsimp [setKV]
        rw [if_pos rfl]
      have hpres1 : (unregisterRemove s c0).presence c0.docID =
          some (eraseAssoc (presList s c0.docID) c0.userID) := by
        rw [hs1]
        dsimp [setKV]
        rw [if_pos rfl]
      have hq1 : (unregisterRemove s c0).queues = s.queues := by
        rw [hs1]
      have hstep2 : step s (.unregister c0) =
          broadcastPresence (unregisterRemove s c0) c0.docID := by
        rw [hstep, hrooms1]
        rfl
      have hroomPost : roomAt (step s (.unregister c0)) c0.docID = mem' := by
        rw [hstep2]
        unfold roomAt
        rw [broadcastPresence_rooms, hrooms1]
        rfl
      have hpresPost : presList (step s (.unregister c0)) c0.docID =
          eraseAssoc (presList s c0.docID) c0.userID := by
        rw [hstep2]
        unfold presList
        rw [broadcastPresence_presence, hpres1]
        rfl
      rw [hroomPost] at hc hnd hsp
      have hclne : roomAt (unregisterRemove s c0) c0.docID = mem' := by
        unfold roomAt
        rw [hrooms1]
        rfl
      have hbe := broadcastPresence_eq (unregisterRemove s c0) c0.docID
        (eraseAssoc (presList s c0.docID) c0.userID) hpres1
        (by rw [hclne]; exact list_isEmpty_false_of_mem hc)
      have hsp' : ∀ c' ∈ roomAt (unregisterRemove s c0) c0.docID,
          ((unregisterRemove s c0).queues c'.cid).length < CAP := by
        intro c' hc'
        rw [hq1]
        rw [hclne] at hc'
        have := hsp c' hc'
        unfold queueOf at this
        omega
      have hdel := presenceDeliver_eq (roomAt (unregisterRemove s c0) c0.docID)
        (unregisterRemove s c0)
        (presenceFrame c0.docID ((eraseAssoc (presList s c0.docID) c0.userID).map (·.2)))
        c.cid hsp' (by rw [hclne]; exact hnd)
      have hstat : presStatuses (step s (.unregister c0)) c0.docID =
          (eraseAssoc (presList s c0.docID) c0.userID).map (·.2) := by
        unfold presStatuses
        rw [hpresPost]
      constructor
      · refine ⟨queueOf s c.cid, ?_, rfl⟩
        unfold queueOf
        rw [hstat, hstep2, hbe, hdel]
        rw [if_pos (by rw [hclne]; exact List.mem_map_of_mem Conn.cid hc)]
        rw [hq1]
      · rw [hpresPost]
        exact presListWF_eraseAssoc _ _ hwf
  · -- double unregister: nothing removed, but the presence broadcast still runs
    have hs1 := unregisterRemove_not_mem s c0 hmem
    rcases hroom : s.rooms c0.docID with _ | mem
    · -- no room: step is a no-op and the post room is empty, contradicting hc
      exfalso
      rw [hstep, hs1, hroom] at hc
      simp only [Option.isSome_none, Bool.false_eq_true, if_false] at hc
      unfold roomAt at hc
      rw [hroom] at hc
      exact List.not_mem_nil c hc
    · -- room exists: presence broadcast over the unchanged room
      have hstep2 : step s (.unregister c0) = broadcastPresence s c0.docID := by
        rw [hstep, hs1, hroom]
        rfl
      rcases hpre : s.presence c0.docID with _ | pl
      · exact absurd (hpr hpre) (by rw [hroom]; simp)
      · have hroomPost : roomAt (step s (.unregister c0)) c0.docID = roomAt s c0.docID := by
          rw [hstep2]
          unfold roomAt
          rw [broadcastPresence_rooms]
        have hpresPost : presList (step s (.unregister c0)) c0.docID = pl := by
          rw [hstep2]
          unfold presList
          rw [broadcastPresence_presence, hpre]
          rfl
        rw [hroomPost] at hc hnd hsp
        have hbe := broadcastPresence_eq s c0.docID pl hpre
          (list_isEmpty_false_of_mem hc)
        have hsp' : ∀ c' ∈ roomAt s c0.docID, (s.queues c'.cid).length < CAP := by
          intro c' hc'
          have := hsp c' hc'
          unfold queueOf at this
          omega
        have hdel := presenceDeliver_eq (roomAt s c0.docID) s
          (presenceFrame c0.docID (pl.map (·.2))) c.cid hsp' hnd
        have hstat : presStatuses (step s (.unregister c0)) c0.docID =
            pl.map (·.2) := by
          unfold presStatuses
          rw [hpresPost]
        constructor
        · refine ⟨queueOf s c.cid, ?_, rfl⟩
          unfold queueOf
          rw [hstat, hstep2, hbe, hdel]
          rw [if_pos (List.mem_map_of_mem Conn.cid hc)]
        · rw [hpresPost]
          unfold presList at hwf
          rw [hpre] at hwf
          exact hwf



theorem registerSends_rooms (s2 : HubState) (c : Conn) (snap : Payload) :
    (registerSends s2 c snap).rooms = s2.rooms := by
  unfold registerSends
  split
  · dsimp only
    split
    · rw [broadcastPresence_rooms]
    · rfl
  · rfl

theorem registerSends_presence (s2 : HubState) (c : Conn) (snap : Payload) :
    (registerSends s2 c snap).presence = s2.presence := by
  unfold registerSends
  split
  · dsimp only
    split
    · rw [broadcastPresence_presence]
    · rfl
  · rfl

theorem C5_register_aux (s : HubState) (c0 c : Conn)
    (hst : s.stuck = false)
    (hwf : presListWF (presList s c0.docID))
    (hnd : ((roomAt (step s (.register c0)) c0.docID).map Conn.cid).Nodup)
    (hsp : ∀ c' ∈ roomAt (step s (.register c0)) c0.docID,
      (queueOf s c'.cid).length + 3 ≤ CAP)
    (hc : c ∈ roomAt (step s (.register c0)) c0.docID) :
    (∃ pre, queueOf (step s (.register c0)) c.cid =
        pre ++ [presenceFrame c0.docID (presStatuses (step s (.register c0)) c0.docID)] ∧
      countPresence pre = countPresence (queueOf s c.cid)) ∧
    presListWF (presList (step s (.register c0)) c0.docID) := by
  have hstep : step s (.register c0)
      = registerSends (registerMutate s c0) c0 (cacheAt (registerMutate s c0) c0.docID) := by
    dsimp [step, registerStep]
    rw [hst]
    rfl
  have hr2 := registerMutate_roomAt s c0
  have hp2 := registerMutate_presence s c0
  have hq2 := registerMutate_queues s c0
  have hroomPost : roomAt (step s (.register c0)) c0.docID =
      addConn (roomAt s c0.docID) c0 := by
    rw [hstep]
    unfold roomAt
    rw [registerSends_rooms]
    exact hr2
  have hpresPost : (step s (.register c0)).presence c0.docID =
      some (setAssoc (presList (registerInitDoc s c0) c0.docID) c0.userID
        ⟨c0.userID, 0, s.now⟩) := by
    rw [hstep, registerSends_presence]
    exact hp2
  rw [hroomPost] at hnd hsp hc
  have hlen0 : (s.queues c0.cid).length + 3 ≤ CAP := by
    have := hsp c0 (mem_addConn_self _ _)
    unfold queueOf at this
    exact this
  have hse := registerSends_eq (registerMutate s c0) c0
    (cacheAt (registerMutate s c0) c0.docID) (by rw [hq2]; omega)
  set s4 := registerEnqueues (registerMutate s c0) c0
    (cacheAt (registerMutate s c0) c0.docID) with hs4
  have hr4 : roomAt s4 c0.docID = addConn (roomAt s c0.docID) c0 := by
    rw [hs4]
    unfold roomAt registerEnqueues
    dsimp only
    exact hr2
  have hp4 : s4.presence c0.docID =
      some (setAssoc (presList (registerInitDoc s c0) c0.docID) c0.userID
        ⟨c0.userID, 0, s.now⟩) := by
    rw [hs4]
    exact hp2
  have hq4self : s4.queues c0.cid = s.queues c0.cid ++
      [⟨UpdateType, c0.docID, "", cacheAt (registerMutate s c0) c0.docID⟩,
       ⟨MetadataType, c0.docID, c0.userID, .titleObj c0.title⟩] := by
    rw [hs4, registerEnqueues_queues_self, hq2]
  have hq4other : ∀ k, k ≠ c0.cid → s4.queues k = s.queues k := by
    intro k hk
    rw [hs4, registerEnqueues_queues_other _ _ _ _ hk, hq2]
  have hbe := broadcastPresence_eq s4 c0.docID
    (setAssoc (presList (registerInitDoc s c0) c0.docID) c0.userID ⟨c0.userID, 0, s.now⟩)
    hp4 (by rw [hr4]; exact list_isEmpty_false_of_mem hc)
  have hsp4 : ∀ c' ∈ roomAt s4 c0.docID, (s4.queues c'.cid).length < CAP := by
    intro c' hc'
    by_cases hcc : c'.cid = c0.cid
    · rw [hcc, hq4self, List.length_append]
      simp only [List.length_cons, List.length_singleton, List.length_nil]
      omega
    · rw [hq4other _ hcc]
      rw [hr4] at hc'
      have := hsp c' hc'
      unfold queueOf at this
      omega
  have hnd4 : ((roomAt s4 c0.docID).map Conn.cid).Nodup := by
    rw [hr4]
    exact hnd
  have hdel := presenceDeliver_eq (roomAt s4 c0.docID) s4
    (presenceFrame c0.docID
      ((setAssoc (presList (registerInitDoc s c0) c0.docID) c0.userID
        ⟨c0.userID, 0, s.now⟩).map (·.2)))
    c.cid hsp4 hnd4
  have hstat : presStatuses (step s (.register c0)) c0.docID =
      (setAssoc (presList (registerInitDoc s c0) c0.docID) c0.userID
        ⟨c0.userID, 0, s.now⟩).map (·.2) := by
    unfold presStatuses presList
    rw [hpresPost]
    rfl
  have hcid4 : c.cid ∈ (roomAt s4 c0.docID).map Conn.cid := by
    rw [hr4]
    exact List.mem_map_of_mem Conn.cid hc
  constructor
  · by_cases hcc : c.cid = c0.cid
    · refine ⟨s.queues c.cid ++
        [⟨UpdateType, c0.docID, "", cacheAt (registerMutate s c0) c0.docID⟩,
         ⟨MetadataType, c0.docID, c0.userID, .titleObj c0.title⟩], ?_, ?_⟩
      · unfold queueOf
        rw [hstat, hstep, hse, hbe, hdel, if_pos hcid4, hcc, hq4self, List.append_assoc]
      · rw [countPresence_append]
        rfl
    · refine ⟨queueOf s c.cid, ?_, rfl⟩
      unfold queueOf
      rw [hstat, hstep, hse, hbe, hdel, if_pos hcid4, hq4other _ hcc]
  · unfold presList
    rw [hpresPost]
    exact presListWF_setAssoc _ _ _ (registerInitDoc_presListWF s c0 hwf) rfl



theorem deliverList_rooms (l : List Conn) (s : HubState) (m : WSMessage) :
    (deliverList s m l).rooms = s.rooms := by
  induction l generalizing s with
  | nil => rfl
  | cons c rest ih =>
    dsimp [deliverList]
    split
    · exact ih _
    · rfl

theorem deliverList_closed (l : List Conn) (s : HubState) (m : WSMessage) :
    (deliverList s m l).closedCount = s.closedCount := by
  induction l generalizing s with
  | nil => rfl
  | cons c rest ih =>
    dsimp [deliverList]
    split
    · exact ih _
    · rfl

theorem presenceDeliver_closed (l : List Conn) (s : HubState) (m : WSMessage) :
    (presenceDeliver s m l).closedCount = s.closedCount := by
  induction l generalizing s with
  | nil => rfl
  | cons c rest ih => dsimp [presenceDeliver]; split <;> exact ih _

theorem broadcastPresence_closed (s : HubState) (d : String) :
    (broadcastPresence s d).closedCount = s.closedCount := by
  unfold broadcastPresence
  split
  · rfl
  · dsimp only
    split
    · rfl
    · exact presenceDeliver_closed _ _ _

theorem registerSends_closed (s2 : HubState) (c : Conn) (snap : Payload) :
    (registerSends s2 c snap).closedCount = s2.closedCount := by
  unfold registerSends
  split
  · dsimp only
    split
    · rw [broadcastPresence_closed]
    · rfl
  · rfl

theorem registerMutate_closed (s : HubState) (c : Conn) :
    (registerMutate s c).closedCount = s.closedCount := by
  unfold registerMutate registerInitDoc
  split <;> rfl

theorem registerStep_closed (s : HubState) (c : Conn) :
    (registerStep s c).closedCount = s.closedCount := by
  unfold registerStep
  split
  · rfl
  · rw [registerSends_closed, registerMutate_closed]

theorem broadcastStep_closed (s : HubState) (m : WSMessage) :
    (broadcastStep s m).closedCount = s.closedCount := by
  unfold broadcastStep
  split
  · rfl
  · dsimp only
    rw [deliverList_closed]
    split <;> rfl

theorem clientSendStep_closed (s : HubState) (c : Conn) (m : WSMessage) :
    (clientSendStep s c m).closedCount = s.closedCount := by
  unfold clientSendStep
  dsimp only
  split
  · rfl
  · exact broadcastStep_closed _ _

theorem swSnapshotStep_closed (s : HubState) :
    (swSnapshotStep s).closedCount = s.closedCount := by
  unfold swSnapshotStep
  split <;> rfl

theorem swWriteStep_closed (s : HubState) (ok : Bool) :
    (swWriteStep s ok).closedCount = s.closedCount := by
  unfold swWriteStep
  split
  · rfl
  · split
    · dsimp only
      split <;> rfl
    · rfl

theorem swSnapshotStep_rooms (s : HubState) :
    (swSnapshotStep s).rooms = s.rooms := by
  unfold swSnapshotStep
  split <;> rfl

theorem swWriteStep_rooms (s : HubState) (ok : Bool) :
    (swWriteStep s ok).rooms = s.rooms := by
  unfold swWriteStep
  split
  · rfl
  · split
    · dsimp only
      split <;> rfl
    · rfl

theorem broadcastStep_rooms (s : HubState) (m : WSMessage) :
    (broadcastStep s m).rooms = s.rooms := by
  unfold broadcastStep
  split
  · rfl
  · dsimp only
    rw [deliverList_rooms]
    split <;> rfl

theorem clientSendStep_rooms (s : HubState) (c : Conn) (m : WSMessage) :
    (clientSendStep s c m).rooms = s.rooms := by
  unfold clientSendStep
  dsimp only
  split
  · rfl
  · exact broadcastStep_rooms _ _




theorem mem_addConn_iff (l : List Conn) (c c' : Conn) :
    c ∈ addConn l c' ↔ c ∈ l ∨ c = c' := by
  unfold addConn
  by_cases h : c' ∈ l
  · rw [if_pos h]
    constructor
    · exact Or.inl
    · rintro (h' | h')
      · exact h'
      · exact h' ▸ h
  · rw [if_neg h]
    simp

theorem addConn_nodup (l : List Conn) (c : Conn) (h : l.Nodup) :
    (addConn l c).Nodup := by
  unfold addConn
  by_cases hm : c ∈ l
  · rw [if_pos hm]; exact h
  · rw [if_neg hm]
    rw [List.nodup_append]
    refine ⟨h, List.nodup_singleton c, ?_⟩
    intro x hx hxc
    rw [List.mem_singleton] at hxc
    exact hm (hxc ▸ hx)

theorem registerMutate_rooms_at (s : HubState) (c : Conn) (d : String) :
    (registerMutate s c).rooms d =
      if d = c.docID then some (addConn (roomAt s c.docID) c) else s.rooms d := by
  unfold registerMutate registerInitDoc
  rcases h : s.rooms c.docID with _ | mem <;>
    by_cases hd : d = c.docID <;>
      simp [setKV, roomAt, hd, h]

theorem registerStep_rooms (s : HubState) (c : Conn) (hst : s.stuck = false) :
    (registerStep s c).rooms = (registerMutate s c).rooms := by
  unfold registerStep
  rw [hst]
  simp only [Bool.false_eq_true, if_false]
  exact registerSends_rooms _ _ _

theorem unregisterStep_rooms (s : HubState) (c : Conn) (hst : s.stuck = false) :
    (unregisterStep s c).rooms = (unregisterRemove s c).rooms := by
  unfold unregisterStep
  rw [hst]
  simp only [Bool.false_eq_true, if_false]
  split
  · exact broadcastPresence_rooms _ _
  · rfl

theorem unregisterStep_closed (s : HubState) (c : Conn) (hst : s.stuck = false) :
    (unregisterStep s c).closedCount = (unregisterRemove s c).closedCount := by
  unfold unregisterStep
  rw [hst]
  simp only [Bool.false_eq_true, if_false]
  split
  · exact broadcastPresence_closed _ _
  · rfl

theorem unregisterRemove_rooms_empty_at (s : HubState) (c : Conn)
    (hmem : c ∈ roomAt s c.docID)
    (hempty : ((roomAt s c.docID).erase c).isEmpty = true) (d : String) :
    (unregisterRemove s c).rooms d = if d = c.docID then none else s.rooms d := by
  unfold unregisterRemove
  rw [if_pos hmem]
  dsimp only
  rw [hempty, if_pos rfl]
  dsimp [setKV]
  by_cases hd : d = c.docID
  · rw [if_pos hd, if_pos hd]
  · rw [if_neg hd, if_neg hd]
    split <;> rfl

theorem unregisterRemove_rooms_nonempty_at (s : HubState) (c : Conn)
    (hmem : c ∈ roomAt s c.docID)
    (hempty : ((roomAt s c.docID).erase c).isEmpty = false) (d : String) :
    (unregisterRemove s c).rooms d =
      if d = c.docID then some ((roomAt s c.docID).erase c) else s.rooms d := by
  rw [unregisterRemove_nonempty s c hmem hempty]
  rfl

theorem unregisterRemove_closed_bump (s : HubState) (c : Conn)
    (hmem : c ∈ roomAt s c.docID) :
    (unregisterRemove s c).closedCount = bump s.closedCount c.cid := by
  by_cases hempty : ((roomAt s c.docID).erase c).isEmpty = true
  · unfold unregisterRemove
    rw [if_pos hmem]
    dsimp only
    rw [hempty, if_pos rfl]
    dsimp only
    split <;> rfl
  · rw [unregisterRemove_nonempty s c hmem (Bool.eq_false_iff.2 hempty)]

theorem removeDocumentStep_rooms_at (s : HubState) (d0 d : String) :
    (removeDocumentStep s d0).rooms d = if d = d0 then none else s.rooms d := by
  rfl



theorem step_room_nodup (s : HubState) (ev : Ev) (c : Conn)
    (hnd : (roomAt s c.docID).Nodup) : (roomAt (step s ev) c.docID).Nodup := by
  cases ev with
  | register c' =>
    by_cases hst : s.stuck = true
    · dsimp [step, registerStep]
      rw [hst, if_pos rfl]
      exact hnd
    · dsimp [step]
      unfold roomAt
      rw [registerStep_rooms s c' (Bool.eq_false_iff.2 hst), registerMutate_rooms_at]
      by_cases hd : c.docID = c'.docID
      · rw [if_pos hd]
        dsimp only [Option.getD]
        apply addConn_nodup
        rw [← hd]
        exact hnd
      · rw [if_neg hd]
        exact hnd
  | unregister c' =>
    by_cases hst : s.stuck = true
    · dsimp [step, unregisterStep]
      rw [hst, if_pos rfl]
      exact hnd
    · dsimp [step]
      unfold roomAt
      rw [unregisterStep_rooms s c' (Bool.eq_false_iff.2 hst)]
      by_cases hmem : c' ∈ roomAt s c'.docID
      · by_cases hempty : ((roomAt s c'.docID).erase c').isEmpty = true
        · rw [unregisterRemove_rooms_empty_at s c' hmem hempty]
          split
          · exact List.nodup_nil
          · exact hnd
        · rw [unregisterRemove_rooms_nonempty_at s c' hmem (Bool.eq_false_iff.2 hempty)]
          split
          · next hd =>
            dsimp only [Option.getD]
            apply List.Nodup.erase
            rw [← hd]
            exact hnd
          · exact hnd
      · rw [unregisterRemove_not_mem s c' hmem]
        exact hnd
  | broadcast m =>
    unfold roomAt
    dsimp [step]
    rw [broadcastStep_rooms]
    exact hnd
  | clientSend c' m =>
    unfold roomAt
    dsimp [step]
    rw [clientSendStep_rooms]
    exact hnd
  | swSnapshot =>
    unfold roomAt
    dsimp [step]
    rw [swSnapshotStep_rooms]
    exact hnd
  | swWrite ok =>
    unfold roomAt
    dsimp [step]
    rw [swWriteStep_rooms]
    exact hnd
  | removeDocument d0 =>
    unfold roomAt
    dsimp [step]
    rw [removeDocumentStep_rooms_at]
    split
    · exact List.nodup_nil
    · exact hnd



theorem memb_le_one (s : HubState) (c : Conn) : memb s c ≤ 1 := by
  unfold memb
  split <;> omega

theorem closed_memb_step (s : HubState) (ev : Ev) (c : Conn)
    (hnd : (roomAt s c.docID).Nodup)
    (hcid : ∀ c', (ev = Ev.register c' ∨ ev = Ev.unregister c') → c'.cid = c.cid → c' = c) :
    (step s ev).closedCount c.cid + memb (step s ev) c ≤
      s.closedCount c.cid + memb s c + regsOf c [ev] := by
  cases ev with
  | register c' =>
    have hcl : (step s (Ev.register c')).closedCount = s.closedCount :=
      registerStep_closed s c'
    by_cases hcc : c' = c
    · subst hcc
      have : regsOf c' [Ev.register c'] = 1 := by simp [regsOf]
      rw [hcl, this]
      have := memb_le_one (step s (Ev.register c')) c'
      have := memb_le_one s c'
      omega
    · have hregs : regsOf c [Ev.register c'] = 0 := by simp [regsOf, hcc]
      have hmemb : memb (step s (Ev.register c')) c = memb s c := by
        by_cases hst : s.stuck = true
        · unfold memb
          dsimp [step, registerStep]
          rw [hst, if_pos rfl]
        · have hroom : roomAt (step s (Ev.register c')) c.docID =
              (if c.docID = c'.docID then addConn (roomAt s c'.docID) c'
               else roomAt s c.docID) := by
            unfold roomAt
            dsimp [step]
            rw [registerStep_rooms s c' (Bool.eq_false_iff.2 hst), registerMutate_rooms_at]
            by_cases hd : c.docID = c'.docID
            · rw [if_pos hd, if_pos hd]
              rfl
            · rw [if_neg hd, if_neg hd]
          unfold memb
          rw [hroom]
          by_cases hd : c.docID = c'.docID
          · rw [if_pos hd]
            have hiff : (c ∈ addConn (roomAt s c'.docID) c') ↔ c ∈ roomAt s c.docID := by
              rw [mem_addConn_iff, ← hd]
              constructor
              · rintro (h | h)
                · exact h
                · exact absurd h.symm hcc
              · exact Or.inl
            exact if_congr hiff rfl rfl
          · rw [if_neg hd]
      rw [hcl, hregs, hmemb]
      omega
  | unregister c' =>
    have hregs : regsOf c [Ev.unregister c'] = 0 := by simp [regsOf]
    rw [hregs]
    by_cases hst : s.stuck = true
    · dsimp [step, unregisterStep]
      rw [hst, if_pos rfl]
    · have hst' : s.stuck = false := Bool.eq_false_iff.2 hst
      dsimp [step]
      rw [show (unregisterStep s c').closedCount = (unregisterRemove s c').closedCount from
        unregisterStep_closed s c' hst']
      have hmembEq : memb (unregisterStep s c') c =
          (if c ∈ ((unregisterRemove s c').rooms c.docID).getD [] then 1 else 0) := by
        unfold memb roomAt
        rw [unregisterStep_rooms s c' hst']
      rw [hmembEq]
      by_cases hmem : c' ∈ roomAt s c'.docID
      · rw [unregisterRemove_closed_bump s c' hmem]
        by_cases hcc : c' = c
        · subst hcc
          have hb : bump s.closedCount c'.cid c'.cid = s.closedCount c'.cid + 1 := by
            unfold bump
            rw [if_pos rfl]
          rw [hb]
          have hm1 : memb s c' = 1 := by
            unfold memb
            rw [if_pos hmem]
          rw [hm1]
          -- after removal c' is no longer in its room
          by_cases hempty : ((roomAt s c'.docID).erase c').isEmpty = true
          · rw [unregisterRemove_rooms_empty_at s c' hmem hempty, if_pos rfl]
            simp
          · rw [unregisterRemove_rooms_nonempty_at s c' hmem (Bool.eq_false_iff.2 hempty),
              if_pos rfl]
            dsimp only [Option.getD]
            rw [if_neg hnd.not_mem_erase]
        · have hcid' : c'.cid ≠ c.cid := fun h => hcc (hcid c' (Or.inr rfl) h)
          have hb : bump s.closedCount c'.cid c.cid = s.closedCount c.cid := by
            unfold bump
            rw [if_neg (fun h => hcid' h.symm)]
          rw [hb]
          -- membership of c can only shrink
          by_cases hempty : ((roomAt s c'.docID).erase c').isEmpty = true
          · rw [unregisterRemove_rooms_empty_at s c' hmem hempty]
            split
            · simp only [Option.getD_none, List.not_mem_nil, if_false]
              have := memb_le_one s c
              omega
            · unfold memb roomAt
              omega
          · rw [unregisterRemove_rooms_nonempty_at s c' hmem (Bool.eq_false_iff.2 hempty)]
            split
            · next hd =>
              dsimp only [Option.getD]
              unfold memb
              by_cases hin : c ∈ (roomAt s c'.docID).erase c'
              · rw [if_pos hin]
                have : c ∈ roomAt s c.docID := by
                  rw [hd]
                  exact List.mem_of_mem_erase hin
                rw [if_pos this]
              · rw [if_neg hin]
                omega
            · unfold memb roomAt
              omega
      · rw [unregisterRemove_not_mem s c' hmem]
        unfold memb roomAt
        omega
  | broadcast m =>
    have h1 : (step s (Ev.broadcast m)).closedCount = s.closedCount := broadcastStep_closed s m
    have h2 : memb (step s (Ev.broadcast m)) c = memb s c := by
      unfold memb roomAt
      dsimp [step]
      rw [broadcastStep_rooms]
    rw [h1, h2]
    simp [regsOf]
  | clientSend c' m =>
    have h1 : (step s (Ev.clientSend c' m)).closedCount = s.closedCount :=
      clientSendStep_closed s c' m
    have h2 : memb (step s (Ev.clientSend c' m)) c = memb s c := by
      unfold memb roomAt
      dsimp [step]
      rw [clientSendStep_rooms]
    rw [h1, h2]
    simp [regsOf]
  | swSnapshot =>
    have h1 : (step s Ev.swSnapshot).closedCount = s.closedCount := swSnapshotStep_closed s
    have h2 : memb (step s Ev.swSnapshot) c = memb s c := by
      unfold memb roomAt
      dsimp [step]
      rw [swSnapshotStep_rooms]
    rw [h1, h2]
    simp [regsOf]
  | swWrite ok =>
    have h1 : (step s (Ev.swWrite ok)).closedCount = s.closedCount := swWriteStep_closed s ok
    have h2 : memb (step s (Ev.swWrite ok)) c = memb s c := by
      unfold memb roomAt
      dsimp [step]
      rw [swWriteStep_rooms]
    rw [h1, h2]
    simp [regsOf]
  | removeDocument d0 =>
    have h1 : (step s (Ev.removeDocument d0)).closedCount = s.closedCount := rfl
    have h2 : memb (step s (Ev.removeDocument d0)) c ≤ memb s c := by
      unfold memb roomAt
      dsimp [step]
      rw [removeDocumentStep_rooms_at]
      split
      · simp only [Option.getD_none, List.not_mem_nil, if_false]
        omega
      · omega
    have hregs : regsOf c [Ev.removeDocument d0] = 0 := by simp [regsOf]
    rw [h1, hregs]
    omega



theorem regsOf_cons (c : Conn) (ev : Ev) (t : List Ev) :
    regsOf c (ev :: t) = regsOf c [ev] + regsOf c t := by
  cases ev <;> simp [regsOf]

theorem evConns_head (c' : Conn) (ev : Ev) (t : List Ev)
    (h : ev = Ev.register c' ∨ ev = Ev.unregister c') : c' ∈ evConns (ev :: t) := by
  rcases h with h | h <;> subst h <;> simp [evConns]

theorem evConns_tail (c' : Conn) (ev : Ev) (t : List Ev)
    (h : c' ∈ evConns t) : c' ∈ evConns (ev :: t) := by
  cases ev <;> simp [evConns, h]

theorem closed_run_bound (evs : List Ev) (s : HubState) (c : Conn)
    (hnd : (roomAt s c.docID).Nodup)
    (hcid : ∀ c' ∈ evConns evs, c'.cid = c.cid → c' = c) :
    (run s evs).closedCount c.cid + memb (run s evs) c ≤
      s.closedCount c.cid + memb s c + regsOf c evs := by
  induction evs generalizing s with
  | nil => simp [run, regsOf]
  | cons ev t ih =>
    have h1 := closed_memb_step s ev c hnd
      (fun c' hev hcc => hcid c' (evConns_head c' ev t hev) hcc)
    have h2 := ih (step s ev) (step_room_nodup s ev c hnd)
      (fun c' h hcc => hcid c' (evConns_tail c' ev t h) hcc)
    have hrun : run s (ev :: t) = run (step s ev) t := rfl
    rw [hrun, regsOf_cons]
    omega



/-- Claim C8, amended.  A Connection's outbound queue is closed at most
once, always by the Hub's unregister handler, and only at the moment
the Connection is removed from its room; but not exactly once in every
execution: after a forced remove the room entry is gone, the exiting
read pump's unregister finds nothing, and the queue is never closed
(see the counterexample).  Part one: over any event sequence in which
distinct Connections have distinct cids and `c` is registered at most
once, `c`'s queue is closed at most once.  Part two: any step that
changes a close counter is an unregister of a member Connection, closes
exactly once, and leaves that Connection outside its room. -/
theorem C8_close_at_most_once :
    (∀ (s : HubState) (evs : List Ev) (c : Conn),
      (roomAt s c.docID).Nodup →
      (∀ c' ∈ evConns evs, c'.cid = c.cid → c' = c) →
      s.closedCount c.cid = 0 →
      c ∉ roomAt s c.docID →
      regsOf c evs ≤ 1 →
      (run s evs).closedCount c.cid ≤ 1) ∧
    (∀ (s : HubState) (ev : Ev) (k : Nat),
      (step s ev).closedCount k ≠ s.closedCount k →
      ∃ c', ev = Ev.unregister c' ∧ c'.cid = k ∧ s.stuck = false ∧
        c' ∈ roomAt s c'.docID ∧
        (step s ev).closedCount k = s.closedCount k + 1 ∧
        ((roomAt s c'.docID).Nodup → c' ∉ roomAt (step s ev) c'.docID)) := by
  constructor
  · intro s evs c hnd hcid h0 hnm hregs
    have hb := closed_run_bound evs s c hnd hcid
    have hm : memb s c = 0 := by
      unfold memb
      rw [if_neg hnm]
    omega
  · intro s ev k hch
    cases ev with
    | register c' => exact absurd (congrFun (registerStep_closed s c') k) hch
    | broadcast m => exact absurd (congrFun (broadcastStep_closed s m) k) hch
    | clientSend c' m => exact absurd (congrFun (clientSendStep_closed s c' m) k) hch
    | swSnapshot => exact absurd (congrFun (swSnapshotStep_closed s) k) hch
    | swWrite ok => exact absurd (congrFun (swWriteStep_closed s ok) k) hch
    | removeDocument d0 => exact absurd rfl hch
    | unregister c' =>
      by_cases hst : s.stuck = true
      · exfalso
        apply hch
        dsimp [step, unregisterStep]
        rw [hst, if_pos rfl]
      · have hst' : s.stuck = false := Bool.eq_false_iff.2 hst
        have hcl : (step s (Ev.unregister c')).closedCount =
            (unregisterRemove s c').closedCount := unregisterStep_closed s c' hst'
        by_cases hmem : c' ∈ roomAt s c'.docID
        · have hb : (unregisterRemove s c').closedCount = bump s.closedCount c'.cid :=
            unregisterRemove_closed_bump s c' hmem
        -- the change happens exactly at c'.cid
          by_cases hk : k = c'.cid
          · refine ⟨c', rfl, hk.symm, hst', hmem, ?_, ?_⟩
            · rw [hcl, hb, hk]
              unfold bump
              rw [if_pos rfl]
            · intro hndr
              have hrooms : (step s (Ev.unregister c')).rooms =
                  (unregisterRemove s c').rooms := unregisterStep_rooms s c' hst'
              unfold roomAt
              rw [hrooms]
              by_cases hempty : ((roomAt s c'.docID).erase c').isEmpty = true
              · rw [unregisterRemove_rooms_empty_at s c' hmem hempty, if_pos rfl]
                simp
              · rw [unregisterRemove_rooms_nonempty_at s c' hmem
                  (Bool.eq_false_iff.2 hempty), if_pos rfl]
                dsimp only [Option.getD]
                exact hndr.not_mem_erase
          · exfalso
            apply hch
            rw [hcl, hb]
            unfold bump
            rw [if_neg hk]
        · exfalso
          apply hch
          rw [hcl, unregisterRemove_not_mem s c' hmem]

/-- Witness for the amended C8: part one on the forced-remove execution
(the queue of A's connection is closed at most — here exactly zero —
once), part two on an ordinary unregister in a two-user room. -/
theorem C8_close_at_most_once_witness :
    ((∀ c' ∈ evConns [Ev.register connA1, Ev.removeDocument "D", Ev.unregister connA1],
        c'.cid = connA1.cid → c' = connA1) ∧
      regsOf connA1 [Ev.register connA1, Ev.removeDocument "D", Ev.unregister connA1] ≤ 1 ∧
      (run (initState dbEmpty)
          [Ev.register connA1, Ev.removeDocument "D",
            Ev.unregister connA1]).closedCount connA1.cid ≤ 1) ∧
    ((step room2 (Ev.unregister connA1)).closedCount connA1.cid ≠
        room2.closedCount connA1.cid ∧
      ∃ c', Ev.unregister connA1 = Ev.unregister c' ∧ c'.cid = connA1.cid ∧
        room2.stuck = false ∧ c' ∈ roomAt room2 c'.docID ∧
        (step room2 (Ev.unregister connA1)).closedCount connA1.cid =
          room2.closedCount connA1.cid + 1 ∧
        ((roomAt room2 c'.docID).Nodup →
          c' ∉ roomAt (step room2 (Ev.unregister connA1)) c'.docID)) :=
  ⟨⟨by decide, by decide,
      C8_close_at_most_once.1 (initState dbEmpty)
        [Ev.register connA1, Ev.removeDocument "D", Ev.unregister connA1] connA1
        (by simp [initState, roomAt]) (by decide) rfl (by simp [initState, roomAt])
        (by decide)⟩,
    ⟨by decide, C8_close_at_most_once.2 room2 (Ev.unregister connA1) connA1.cid
      (by decide)⟩⟩

/-- Claim C5, amended.  After every register or unregister processed on
a live hub that leaves the room non-empty, every remaining Connection
with queue headroom receives exactly one PRESENCE_UPDATE (the frames
added to its queue end with the presence frame and contain no other
presence frame), and the status list the frame carries is exactly the
per-document presence map: one entry per userID *key* of that map, each
entry carrying its key.  Because the unregister handler deletes the
whole key, a userID that still has another Connection registered may be
absent from the list (see the counterexample). -/
theorem C5_presence_per_presence_key (s : HubState) (ev : Ev) (c0 c : Conn)
    (hst : s.stuck = false)
    (hev : ev = Ev.register c0 ∨ ev = Ev.unregister c0)
    (hwf : presListWF (presList s c0.docID))
    (hpr : s.presence c0.docID = none → s.rooms c0.docID = none)
    (hnd : ((roomAt (step s ev) c0.docID).map Conn.cid).Nodup)
    (hsp : ∀ c' ∈ roomAt (step s ev) c0.docID,
      (queueOf s c'.cid).length + 3 ≤ CAP)
    (hc : c ∈ roomAt (step s ev) c0.docID) :
    (∃ pre, queueOf (step s ev) c.cid =
        pre ++ [presenceFrame c0.docID (presStatuses (step s ev) c0.docID)] ∧
      countPresence pre = countPresence (queueOf s c.cid)) ∧
    presListWF (presList (step s ev) c0.docID) := by
  rcases hev with h | h
  · subst h
    exact C5_register_aux s c0 c hst hwf hnd hsp hc
  · subst h
    exact C5_unregister_aux s c0 c hst hwf hpr hnd hsp hc

/-- Witness for the amended C5: B's tab after A's only tab leaves a
two-user room. -/
theorem C5_presence_per_presence_key_witness :
    (presListWF (presList room2 connA1.docID) ∧
      connB ∈ roomAt (step room2 (Ev.unregister connA1)) connA1.docID) ∧
    ((∃ pre, queueOf (step room2 (Ev.unregister connA1)) connB.cid =
        pre ++ [presenceFrame connA1.docID
          (presStatuses (step room2 (Ev.unregister connA1)) connA1.docID)] ∧
      countPresence pre = countPresence (queueOf room2 connB.cid)) ∧
    presListWF (presList (step room2 (Ev.unregister connA1)) connA1.docID)) :=
  ⟨⟨by decide, by decide⟩,
    C5_presence_per_presence_key room2 (Ev.unregister connA1) connA1 connB rfl
      (Or.inr rfl) (by decide) (by decide) (by decide) (by decide) (by decide)⟩

end Satunaskah
